import Mathlib

/-!
Verification of the rexsgdata scatter-gather data wrapper.

The library (src/lib.rs) offers one tagged union `SgData` over four
physical representations of a byte payload:

  * `SgList`  — a caller-owned C array of `iovec` descriptors (pointer + count);
  * `SgVec`   — an owned list of owned byte buffers (`Vec<Vec<u8>>`);
  * `Direct`  — a single owned byte buffer (`Vec<u8>`);
  * `Element` — an owned list of `Element`, each either an `iovec` region or a
    virtual zero-run (`Zle`).

We embed the data model shallowly.  Raw memory is modelled by two explicit
heaps: `mem : Nat → Nat` gives the byte stored at every address, and
`dmem : Nat → Iovec` gives the `iovec` descriptor stored at every descriptor
address (pointer arithmetic `ptr.offset(idx)` becomes `p + idx`).  Pointers
and lengths are `Nat`; bytes are `Nat` (the code only ever moves bytes, never
computes with them, so no modular arithmetic arises).

The serde wire form produced by `Serialize for SgData` is modelled by
`WireValue`: the enum name, variant index and variant name passed to
`serialize_tuple_variant`, together with the single field payload, which is
either one byte sequence (`Direct`) or a sequence of byte sequences (the
shared `SgVec` shape).  Panics (`unimplemented!`) are modelled by `Option`,
serde errors by `Except String`.
-/

namespace Rexsgdata

/-- A libc `iovec` descriptor: base pointer and length. -/
structure Iovec where
  iov_base : Nat
  iov_len : Nat
  deriving Repr, DecidableEq

/-- `Element` from src/lib.rs: either a zero-run of a given size (`Zle`) or a
regular `iovec` region. -/
inductive Element where
  | Zle : Nat → Element
  | Iovec : Rexsgdata.Iovec → Element
  deriving Repr

/-- `Element::zero(size)` constructor. -/
def Element.zero (size : Nat) : Element :=
  Element.Zle size

/-- `SgList` from src/lib.rs: a raw pointer to an `iovec` array plus the
number of elements in it.  Only the pointer and the count are stored. -/
structure SgList where
  iovec : Nat
  count : Nat
  deriving Repr, DecidableEq

/-- `SgList::new`. -/
def SgList.new (iovec : Nat) (count : Nat) : SgList :=
  ⟨iovec, count⟩

/-- `SgData` from src/lib.rs: the tagged union over the four representations. -/
inductive SgData where
  | SgList : Rexsgdata.SgList → SgData
  | SgVec : List (List Nat) → SgData
  | Direct : List Nat → SgData
  | Element : List Rexsgdata.Element → SgData
  deriving Repr

/-- The payload of the single field of a serialized `SgData` tuple variant:
one byte sequence (`Direct`) or a sequence of byte sequences. -/
inductive WirePayload where
  | bytes : List Nat → WirePayload
  | seqOfSeqs : List (List Nat) → WirePayload
  deriving Repr, DecidableEq

/-- The wire form emitted by `Serialize for SgData`: the arguments passed to
`serialize_tuple_variant(name, variant_index, variant, 1)` plus the single
field payload. -/
structure WireValue where
  enumName : String
  variantIndex : Nat
  variantName : String
  payload : WirePayload
  deriving Repr, DecidableEq

/-- `slice::from_raw_parts(base, len)` read through the byte heap: the `len`
bytes stored at addresses `base, base+1, …`. -/
def readBytes (mem : Nat → Nat) (base len : Nat) : List Nat :=
  (List.range len).map fun i => mem (base + i)

/-- `Serialize for Element`: `Zle(size)` collects `iter::repeat(0u8).take(size)`;
`Iovec(iov)` collects the slice at `(iov_base, iov_len)`. -/
def Element.serializeElement (mem : Nat → Nat) : Element → List Nat
  | Element.Zle size => List.replicate size 0
  | Element.Iovec iov => readBytes mem iov.iov_base iov.iov_len

/-- `Serialize for SgList`: a sequence with one entry per descriptor index
`0..count`, each entry being the byte slice `(iov_base, iov_len)` read from
the descriptor stored at `self.iovec.offset(idx)`. -/
def SgList.serializeSgList (dmem : Nat → Iovec) (mem : Nat → Nat)
    (sgl : SgList) : List (List Nat) :=
  (List.range sgl.count).map fun idx =>
    let iov := dmem (sgl.iovec + idx)
    readBytes mem iov.iov_base iov.iov_len

/-- `Serialize for SgData`: `SgList`, `SgVec` and `Element` are all written as
tuple variant `("SgData", 1, "SgVec", 1)` whose single field is a sequence of
byte sequences; `Direct` is written as `("SgData", 2, "Direct", 1)` whose
single field is one byte sequence. -/
def SgData.serializeSgData (dmem : Nat → Iovec) (mem : Nat → Nat) :
    SgData → WireValue
  | SgData.SgList sgl =>
      ⟨"SgData", 1, "SgVec", WirePayload.seqOfSeqs (sgl.serializeSgList dmem mem)⟩
  | SgData.SgVec sgvec =>
      ⟨"SgData", 1, "SgVec", WirePayload.seqOfSeqs sgvec⟩
  | SgData.Direct buf =>
      ⟨"SgData", 2, "Direct", WirePayload.bytes buf⟩
  | SgData.Element vec =>
      ⟨"SgData", 1, "SgVec",
        WirePayload.seqOfSeqs (vec.map (Element.serializeElement mem))⟩

/-- `Deserialize for SgList`: ignores its input and always fails. -/
def SgList.deserializeSgList (_input : WirePayload) : Except String SgList :=
  Except.error "Cannot deserialize SgList"

/-- `Deserialize for Element`: ignores its input and always fails. -/
def Element.deserializeElement (_input : WirePayload) : Except String Element :=
  Except.error "Cannot deserialize Element"

/-- The derived `Deserialize for SgData`.  The `SgVec` variant reads its
`Vec<Vec<u8>>` field, the `Direct` variant reads its `Vec<u8>` field.  The
`SgList` variant would read an `SgList` field, whose `Deserialize` always
fails; the `Element` variant would read a `Vec<Element>` field, which fails as
soon as one `Element` must be read (an empty sequence succeeds with an empty
vector before any `Element` is touched).  Shape mismatches are codec errors. -/
def SgData.deserializeSgData (w : WireValue) : Except String SgData :=
  match w.enumName, w.variantName, w.payload with
  | "SgData", "SgVec", WirePayload.seqOfSeqs v => Except.ok (SgData.SgVec v)
  | "SgData", "Direct", WirePayload.bytes b => Except.ok (SgData.Direct b)
  | "SgData", "SgList", _ => Except.error "Cannot deserialize SgList"
  | "SgData", "Element", WirePayload.seqOfSeqs [] => Except.ok (SgData.Element [])
  | "SgData", "Element", _ => Except.error "Cannot deserialize Element"
  | _, _, _ => Except.error "invalid wire value"

/-- `IntoIterator for SgData`, yielding owned buffers in order.  The
`unimplemented!()` panics on `SgList` and `Element` are modelled as `none`. -/
def SgData.intoIter : SgData → Option (List (List Nat))
  | SgData.SgList _ => none
  | SgData.SgVec sgvec => some sgvec
  | SgData.Direct buf => some [buf]
  | SgData.Element _ => none

/-- `FromIterator<Element> for SgData`: collect the elements into a vector and
wrap it in the `Element` variant. -/
def SgData.fromElementIter (l : List Rexsgdata.Element) : SgData :=
  SgData.Element l

/-- `PartialEq for Element`: `Zle` compares sizes, `Iovec` compares the raw
pointer value and the length, and the two kinds are never equal. -/
def Element.beq : Element → Element → Bool
  | Element.Zle size1, Element.Zle size2 => size1 == size2
  | Element.Iovec iov1, Element.Iovec iov2 =>
      iov1.iov_base == iov2.iov_base && iov1.iov_len == iov2.iov_len
  | _, _ => false

/-- The derived `PartialEq for SgList`: field-wise comparison of the raw
descriptor-array pointer and the count. -/
def SgList.beq (a b : SgList) : Bool :=
  a.iovec == b.iovec && a.count == b.count

/-- Concrete byte heap for examples: bytes 7, 8, 9 at addresses 0, 1, 2. -/
def memW : Nat → Nat :=
  fun a => [7, 8, 9].getD a 0

/-- Concrete descriptor heap for examples: descriptor (base 0, len 2) at
address 5 and descriptor (base 2, len 1) at address 6. -/
def dmemW : Nat → Iovec :=
  fun a => if a = 5 then ⟨0, 2⟩ else if a = 6 then ⟨2, 1⟩ else ⟨0, 0⟩

/-- Concrete descriptor heap holding the same descriptor (base 0, len 2) at
every address, so the arrays at any two pointers are byte-identical. -/
def dmemDup : Nat → Iovec :=
  fun _ => ⟨0, 2⟩

/-- Concrete byte heap for the mixed-elements example: bytes 36, 123, 234 at
addresses 100, 101, 102. -/
def memMix : Nat → Nat :=
  fun a =>
    if a = 100 then 36 else if a = 101 then 123 else if a = 102 then 234 else 0

/-- Claim C1: serialization emits exactly two wire tags.  Every `SgList`,
`SgVec` and `Element` value is written under the shared tag "SgVec" (variant
index 1) with a sequence of byte sequences as payload, while every `Direct`
value is written under the distinct tag "Direct" (variant index 2) with one
byte sequence as payload, not wrapped in an outer one-element sequence. -/
theorem serialize_emits_two_tags (dmem : Nat → Iovec) (mem : Nat → Nat)
    (d : SgData) :
    (SgData.serializeSgData dmem mem d).enumName = "SgData" ∧
    match d with
    | SgData.Direct buf =>
        SgData.serializeSgData dmem mem d =
          ⟨"SgData", 2, "Direct", WirePayload.bytes buf⟩
    | _ =>
        (SgData.serializeSgData dmem mem d).variantIndex = 1 ∧
        (SgData.serializeSgData dmem mem d).variantName = "SgVec" ∧
        ∃ v, (SgData.serializeSgData dmem mem d).payload
          = WirePayload.seqOfSeqs v := by
  cases d <;> simp [SgData.serializeSgData]

/-- Claim C2: an external list whose `count` descriptors reference, in index
order, exactly the bytes of the owned buffer list `V` serializes to the same
wire value as `SgVec V`, and deserializing that wire value yields `SgVec V`,
never an external value. -/
theorem sglist_refines_sgvec (dmem : Nat → Iovec) (mem : Nat → Nat)
    (sgl : SgList) (V : List (List Nat))
    (hcount : sgl.count = V.length)
    (hbytes : ∀ i : Fin V.length,
      readBytes mem (dmem (sgl.iovec + i)).iov_base (dmem (sgl.iovec + i)).iov_len
        = V.get i) :
    SgData.serializeSgData dmem mem (SgData.SgList sgl)
      = SgData.serializeSgData dmem mem (SgData.SgVec V) ∧
    SgData.deserializeSgData (SgData.serializeSgData dmem mem (SgData.SgList sgl))
      = Except.ok (SgData.SgVec V) := by
  have hser : SgList.serializeSgList dmem mem sgl = V := by
    apply List.ext_getElem
    · simpa [SgList.serializeSgList] using hcount
    · intro n h1 h2
      have h := hbytes ⟨n, h2⟩
      simpa [SgList.serializeSgList, hcount] using h
  constructor
  · simp [SgData.serializeSgData, hser]
  · simp [SgData.serializeSgData, SgData.deserializeSgData, hser]

/-- Concrete instance of `sglist_refines_sgvec`: two descriptors at addresses
5 and 6 covering the bytes 7, 8 and 9 refine the owned list [[7, 8], [9]]. -/
theorem sglist_refines_sgvec_check :
    SgData.serializeSgData dmemW memW (SgData.SgList (SgList.new 5 2))
      = SgData.serializeSgData dmemW memW (SgData.SgVec [[7, 8], [9]]) ∧
    SgData.deserializeSgData
        (SgData.serializeSgData dmemW memW (SgData.SgList (SgList.new 5 2)))
      = Except.ok (SgData.SgVec [[7, 8], [9]]) :=
  sglist_refines_sgvec dmemW memW (SgList.new 5 2) [[7, 8], [9]] (by decide)
    (by decide)

/-- Claim C3: both fully-owned variants round-trip: serializing `Direct b`
then deserializing yields `Direct b`, and serializing `SgVec V` then
deserializing yields `SgVec V`, preserving order and contents. -/
theorem owned_variants_roundtrip (dmem : Nat → Iovec) (mem : Nat → Nat)
    (b : List Nat) (V : List (List Nat)) :
    SgData.deserializeSgData (SgData.serializeSgData dmem mem (SgData.Direct b))
      = Except.ok (SgData.Direct b) ∧
    SgData.deserializeSgData (SgData.serializeSgData dmem mem (SgData.SgVec V))
      = Except.ok (SgData.SgVec V) :=
  ⟨rfl, rfl⟩

/-- Claim C4: serializing an `Element` yields exactly `size` zero bytes for
`Zle size` and exactly the `length` referenced bytes for an `iovec` region;
the mixed list [region [36, 123, 234], Zero 5] serializes to the
buffer-sequence [[36, 123, 234], [0, 0, 0, 0, 0]]; and `Element [Zle N]`
round-trips into the owned list holding one buffer of `N` zero bytes. -/
theorem element_serialize_bytes (mem : Nat → Nat) (size : Nat) (iov : Iovec)
    (dmem : Nat → Iovec) (N : Nat) :
    Element.serializeElement mem (Element.Zle size) = List.replicate size 0 ∧
    (Element.serializeElement mem (Element.Zle size)).length = size ∧
    Element.serializeElement mem (Element.Iovec iov)
      = readBytes mem iov.iov_base iov.iov_len ∧
    (Element.serializeElement mem (Element.Iovec iov)).length = iov.iov_len ∧
    SgData.serializeSgData dmemW memMix
        (SgData.Element [Element.Iovec ⟨100, 3⟩, Element.zero 5])
      = ⟨"SgData", 1, "SgVec",
          WirePayload.seqOfSeqs [[36, 123, 234], [0, 0, 0, 0, 0]]⟩ ∧
    SgData.deserializeSgData
        (SgData.serializeSgData dmem mem (SgData.Element [Element.zero N]))
      = Except.ok (SgData.SgVec [List.replicate N 0]) := by
  refine ⟨rfl, by simp [Element.serializeElement], rfl,
    by simp [Element.serializeElement, readBytes], by decide, ?_⟩
  simp [SgData.serializeSgData, SgData.deserializeSgData, Element.zero,
    Element.serializeElement]

/-- Claim C5: flattening yields the buffers of `SgVec V` in order, yields the
single buffer of `Direct b` as one item, and is unimplemented (a panic,
modelled as `none`) for `SgList` and `Element` values. -/
theorem into_iter_policy (V : List (List Nat)) (b : List Nat) (sgl : SgList)
    (es : List Element) :
    SgData.intoIter (SgData.SgVec V) = some V ∧
    SgData.intoIter (SgData.Direct b) = some [b] ∧
    SgData.intoIter (SgData.SgList sgl) = none ∧
    SgData.intoIter (SgData.Element es) = none :=
  ⟨rfl, rfl, rfl, rfl⟩

/-- Claim C6: deserializing a standalone `Element` or a standalone `SgList`
fails with an unsupported error on every possible input, and neither ever
succeeds. -/
theorem standalone_deserialize_fails (input : WirePayload) :
    Element.deserializeElement input = Except.error "Cannot deserialize Element" ∧
    SgList.deserializeSgList input = Except.error "Cannot deserialize SgList" ∧
    (∀ e : Element, Element.deserializeElement input ≠ Except.ok e) ∧
    (∀ s : SgList, SgList.deserializeSgList input ≠ Except.ok s) := by
  refine ⟨rfl, rfl, ?_, ?_⟩ <;> intro x h <;>
    simp [Element.deserializeElement, SgList.deserializeSgList] at h

/-- Claim C7: an empty external list (count 0) and an empty owned list both
serialize, without error, to a zero-length sequence of byte sequences under
the shared "SgVec" tag. -/
theorem empty_serializes_to_empty_seq (dmem : Nat → Iovec) (mem : Nat → Nat)
    (ptr : Nat) :
    SgData.serializeSgData dmem mem (SgData.SgList (SgList.new ptr 0))
      = ⟨"SgData", 1, "SgVec", WirePayload.seqOfSeqs []⟩ ∧
    SgData.serializeSgData dmem mem (SgData.SgVec [])
      = ⟨"SgData", 1, "SgVec", WirePayload.seqOfSeqs []⟩ :=
  ⟨rfl, rfl⟩

/-- Claim C8: `Element` equality compares sizes for two zero-runs, compares
the raw pointer value and the length for two regions, and a zero-run never
equals a region (in either order), whatever bytes the region references. -/
theorem element_eq_semantics (s1 s2 : Nat) (i1 i2 : Iovec) (s : Nat)
    (iov : Iovec) :
    (Element.beq (Element.Zle s1) (Element.Zle s2) = true ↔ s1 = s2) ∧
    (Element.beq (Element.Iovec i1) (Element.Iovec i2) = true ↔
      i1.iov_base = i2.iov_base ∧ i1.iov_len = i2.iov_len) ∧
    Element.beq (Element.Zle s) (Element.Iovec iov) = false ∧
    Element.beq (Element.Iovec iov) (Element.Zle s) = false := by
  refine ⟨?_, ?_, rfl, rfl⟩ <;> simp [Element.beq]

/-- Claim C9: `SgList` equality is pure descriptor identity: two values are
equal iff their raw array pointers and counts agree; two lists over distinct
pointers compare unequal even when the descriptor arrays there are
byte-identical and serialize to the same bytes. -/
theorem sglist_eq_is_descriptor_identity (a b : SgList) :
    (SgList.beq a b = true ↔ a.iovec = b.iovec ∧ a.count = b.count) ∧
    SgList.beq (SgList.new 0 1) (SgList.new 10 1) = false ∧
    SgList.serializeSgList dmemDup memW (SgList.new 0 1)
      = SgList.serializeSgList dmemDup memW (SgList.new 10 1) := by
  refine ⟨?_, rfl, rfl⟩
  simp [SgList.beq]

/-- Claim C10: collecting an empty iterator of `Element` yields `Element []`,
which serializes under the shared "SgVec" tag as a zero-length sequence of
sequences, and a zero-size zero-run serializes as an empty byte sequence;
neither is an error. -/
theorem elements_empty_edge_cases (dmem : Nat → Iovec) (mem : Nat → Nat) :
    SgData.fromElementIter [] = SgData.Element [] ∧
    SgData.serializeSgData dmem mem (SgData.fromElementIter [])
      = ⟨"SgData", 1, "SgVec", WirePayload.seqOfSeqs []⟩ ∧
    Element.serializeElement mem (Element.zero 0) = [] :=
  ⟨rfl, rfl, rfl⟩

end Rexsgdata
